import Mathlib

/-! Verification of the pokemon HTTP backend (src/main.rs).

The development shallowly embeds the service: one Lean structure per
database table row, one function per SQL statement giving its semantics
over an in-memory database state, and one Lean function per request
handler. Handlers take a failure oracle telling which statements the
store rejects with a query error; a Rust unwrap on a query error or on a
missing row is modelled as the `panicked` outcome, distinct from every
response envelope. Write statements thread the database state through;
read statements leave it unchanged, which is the semantics of SQL SELECT. -/

namespace PokeApi

structure TrainerRow where
  trainer_id : Int
  name : String
  gym_leader : Bool
  deriving DecidableEq

structure PokemonRow where
  pokemon_id : Int
  name : String
  region_id : Int
  deriving DecidableEq

structure RegionRow where
  region_id : Int
  region_name : String
  deriving DecidableEq

structure AbilityRow where
  ability_id : Int
  name : String
  damage : Int
  status_effect : String
  deriving DecidableEq

structure PokemonAbilitiesRow where
  pokemon_id : Int
  ability_id : Int
  deriving DecidableEq

structure TrainersPokemonRow where
  trainer_id : Int
  pokemon_id : Int
  deriving DecidableEq

/-- The state of the relational store: the six tables of the schema. -/
structure DB where
  trainer : List TrainerRow
  pokemon : List PokemonRow
  region : List RegionRow
  ability : List AbilityRow
  pokemonabilities : List PokemonAbilitiesRow
  trainerspokemon : List TrainersPokemonRow
  deriving DecidableEq

/-- A value passed to the store through a positional parameter placeholder. -/
inductive SqlValue where
  | int (i : Int)
  | str (s : String)
  | bool (b : Bool)
  deriving DecidableEq

/-- The statements issued on the request path, one constructor per SQL
string occurring in the handlers, carrying the caller-supplied parameters. -/
inductive Stmt where
  | selectTrainerAll
  | selectTrainerById (id : Int)
  | selectTrainersPokemonByTrainer (id : Int)
  | selectPokemonById (id : Int)
  | selectRegionNameById (id : Int)
  | selectPokemonAbilitiesByPokemon (id : Int)
  | selectAbilityById (id : Int)
  | selectPokemonAll
  | insertTrainer (name : String) (gym_leader : Bool)
  | deleteTrainer (id : Int)
  deriving DecidableEq

/-- The SQL text of each statement, exactly as it appears in the source. -/
def Stmt.text : Stmt → String
  | .selectTrainerAll => "SELECT * FROM trainer"
  | .selectTrainerById _ => "SELECT * FROM trainer WHERE trainer_id = $1"
  | .selectTrainersPokemonByTrainer _ =>
      "SELECT pokemon_id FROM trainerspokemon WHERE trainer_id = $1"
  | .selectPokemonById _ => "SELECT * FROM pokemon WHERE pokemon_id = $1"
  | .selectRegionNameById _ => "SELECT region_name FROM region WHERE region_id = $1"
  | .selectPokemonAbilitiesByPokemon _ =>
      "SELECT * FROM pokemonabilities WHERE pokemon_id = $1"
  | .selectAbilityById _ => "SELECT * FROM ability WHERE ability_id = $1"
  | .selectPokemonAll => "SELECT * FROM pokemon"
  | .insertTrainer _ _ => "INSERT INTO trainer (name, gym_leader) VALUES ($1, $2)"
  | .deleteTrainer _ => "DELETE FROM trainer WHERE trainer_id = $1"

/-- The parameters bound to the placeholders of each statement. -/
def Stmt.params : Stmt → List SqlValue
  | .selectTrainerAll => []
  | .selectTrainerById id => [.int id]
  | .selectTrainersPokemonByTrainer id => [.int id]
  | .selectPokemonById id => [.int id]
  | .selectRegionNameById id => [.int id]
  | .selectPokemonAbilitiesByPokemon id => [.int id]
  | .selectAbilityById id => [.int id]
  | .selectPokemonAll => []
  | .insertTrainer name gym_leader => [.str name, .bool gym_leader]
  | .deleteTrainer id => [.int id]

/-- The constructor tag of a statement, identifying which of the ten fixed
statements it is, independent of the parameter values it carries. -/
def Stmt.tag : Stmt → Nat
  | .selectTrainerAll => 0
  | .selectTrainerById _ => 1
  | .selectTrainersPokemonByTrainer _ => 2
  | .selectPokemonById _ => 3
  | .selectRegionNameById _ => 4
  | .selectPokemonAbilitiesByPokemon _ => 5
  | .selectAbilityById _ => 6
  | .selectPokemonAll => 7
  | .insertTrainer _ _ => 8
  | .deleteTrainer _ => 9

/-- The ten fixed SQL strings of the request path. -/
def sqlTexts : List String :=
  [ "SELECT * FROM trainer",
    "SELECT * FROM trainer WHERE trainer_id = $1",
    "SELECT pokemon_id FROM trainerspokemon WHERE trainer_id = $1",
    "SELECT * FROM pokemon WHERE pokemon_id = $1",
    "SELECT region_name FROM region WHERE region_id = $1",
    "SELECT * FROM pokemonabilities WHERE pokemon_id = $1",
    "SELECT * FROM ability WHERE ability_id = $1",
    "SELECT * FROM pokemon",
    "INSERT INTO trainer (name, gym_leader) VALUES ($1, $2)",
    "DELETE FROM trainer WHERE trainer_id = $1" ]

/-! Semantics of the individual SELECT statements over a database state. -/

def qTrainerAll (db : DB) : List TrainerRow := db.trainer

def qTrainerById (db : DB) (id : Int) : List TrainerRow :=
  db.trainer.filter (fun r => r.trainer_id == id)

def qTrainersPokemonByTrainer (db : DB) (id : Int) : List Int :=
  (db.trainerspokemon.filter (fun r => r.trainer_id == id)).map
    (fun r => r.pokemon_id)

def qPokemonById (db : DB) (id : Int) : List PokemonRow :=
  db.pokemon.filter (fun r => r.pokemon_id == id)

def qRegionNameById (db : DB) (id : Int) : List String :=
  (db.region.filter (fun r => r.region_id == id)).map (fun r => r.region_name)

def qPokemonAbilitiesByPokemon (db : DB) (id : Int) : List PokemonAbilitiesRow :=
  db.pokemonabilities.filter (fun r => r.pokemon_id == id)

def qAbilityById (db : DB) (id : Int) : List AbilityRow :=
  db.ability.filter (fun r => r.ability_id == id)

def qPokemonAll (db : DB) : List PokemonRow := db.pokemon

/-! Domain records serialized into responses, mirroring the Rust structs. -/

structure Pokemon where
  pokemon_id : Int
  name : String
  region : String
  deriving DecidableEq

structure Trainer where
  trainer_id : Int
  name : String
  gym_leader : Bool
  pokemon : Option (List Pokemon)
  deriving DecidableEq

structure Ability where
  ability_id : Int
  name : String
  damage : Int
  status_effect : String
  deriving DecidableEq

structure PokemonFull where
  pokemon_id : Int
  name : String
  region : String
  abilities : List Ability
  deriving DecidableEq

structure GetTrainersResponse where
  trainers : List Trainer
  deriving DecidableEq

structure GetTrainerResponse where
  trainers : List Trainer
  deriving DecidableEq

structure GetAbilityResponse where
  ability : List Ability
  deriving DecidableEq

structure GetPokemonResponse where
  pokemons : List PokemonFull
  deriving DecidableEq

structure CreateUserRequest where
  name : String
  gym_leader : Bool
  deriving DecidableEq

/-- The three-variant response envelope of the service. -/
inductive ApiResponse (T : Type) where
  | OK
  | Error
  | JsonData (data : T)
  deriving DecidableEq

/-- What a handler invocation observably does: produce an envelope, or
panic on an unwrap (crashing the request task with no envelope at all). -/
inductive Outcome (T : Type) where
  | resp (r : ApiResponse T)
  | panicked
  deriving DecidableEq

/-- A failure oracle: which statements the store fails with a query error. -/
def noFail : Stmt → Bool := fun _ => false

/-- Sequential loop over a list where each step may fail, mirroring the
Rust for-loops that push one result per element and propagate failure. -/
def mapE (f : α → Except Unit β) : List α → Except Unit (List β)
  | [] => .ok []
  | a :: as =>
    match f a with
    | .error e => .error e
    | .ok b =>
      match mapE f as with
      | .error e => .error e
      | .ok bs => .ok (b :: bs)

/-! The GET /trainer handler and its fan-out helpers. -/

/-- Body of the innermost loop of get_trainers: resolve one pokemon row's
region id to a display name (unwrapping the first region row) and build
the Pokemon record. A query error or a missing region row is a panic. -/
def resolveOwnedPokemon (err : Stmt → Bool) (db : DB) (p : PokemonRow) :
    Except Unit Pokemon :=
  if err (.selectRegionNameById p.region_id) then .error ()
  else
    match (qRegionNameById db p.region_id).head? with
    | none => .error ()
    | some region =>
        .ok { pokemon_id := p.pokemon_id, name := p.name, region := region }

/-- One owned-creature id: fetch its pokemon rows and resolve each. -/
def pokemonForId (err : Stmt → Bool) (db : DB) (pid : Int) :
    Except Unit (List Pokemon) :=
  if err (.selectPokemonById pid) then .error ()
  else mapE (resolveOwnedPokemon err db) (qPokemonById db pid)

/-- The pokemon list accumulated for one trainer: ownership lookup, then
per-id creature resolution, concatenated in loop order. -/
def pokemonListForTrainer (err : Stmt → Bool) (db : DB) (tid : Int) :
    Except Unit (List Pokemon) :=
  if err (.selectTrainersPokemonByTrainer tid) then .error ()
  else
    match mapE (pokemonForId err db) (qTrainersPokemonByTrainer db tid) with
    | .error e => .error e
    | .ok lists => .ok lists.flatten

/-- One trainer row of the top-level loop of get_trainers. -/
def assembleTrainer (err : Stmt → Bool) (db : DB) (r : TrainerRow) :
    Except Unit Trainer :=
  match pokemonListForTrainer err db r.trainer_id with
  | .error e => .error e
  | .ok pl =>
      .ok { trainer_id := r.trainer_id, name := r.name,
            gym_leader := r.gym_leader, pokemon := some pl }

/-- Handler for GET /trainer. -/
def get_trainers (err : Stmt → Bool) (db : DB) :
    Outcome GetTrainersResponse × DB :=
  if err .selectTrainerAll then (.resp .Error, db)
  else
    match mapE (assembleTrainer err db) (qTrainerAll db) with
    | .error _ => (.panicked, db)
    | .ok trainers => (.resp (.JsonData { trainers := trainers }), db)

/-- Handler for GET /trainer/id. -/
def get_trainer (err : Stmt → Bool) (db : DB) (id : Int) :
    Outcome GetTrainerResponse × DB :=
  if err (.selectTrainerById id) then (.resp .Error, db)
  else
    (.resp (.JsonData
      { trainers :=
          (qTrainerById db id).map (fun r =>
            { trainer_id := r.trainer_id, name := r.name,
              gym_leader := r.gym_leader, pokemon := none }) }), db)

/-- Body of the ability fan-out shared by get_ability and get_pokemon:
fetch the ability rows for one join row and build Ability records. -/
def abilitiesForJoinRow (err : Stmt → Bool) (db : DB)
    (pa : PokemonAbilitiesRow) : Except Unit (List Ability) :=
  if err (.selectAbilityById pa.ability_id) then .error ()
  else
    .ok ((qAbilityById db pa.ability_id).map (fun a =>
      { ability_id := a.ability_id, name := a.name, damage := a.damage,
        status_effect := a.status_effect }))

/-- Handler for GET /pokemon-abilities/id. -/
def get_ability (err : Stmt → Bool) (db : DB) (id : Int) :
    Outcome GetAbilityResponse × DB :=
  if err (.selectPokemonAbilitiesByPokemon id) then (.resp .Error, db)
  else
    match mapE (abilitiesForJoinRow err db) (qPokemonAbilitiesByPokemon db id) with
    | .error _ => (.panicked, db)
    | .ok ls => (.resp (.JsonData { ability := ls.flatten }), db)

/-- Handler for POST /trainer. The store assigns the new row's id; that
choice is the newId argument. -/
def create_trainer (err : Stmt → Bool) (db : DB) (newId : Int)
    (payload : CreateUserRequest) : Outcome Unit × DB :=
  if err (.insertTrainer payload.name payload.gym_leader) then (.resp .Error, db)
  else
    (.resp .OK,
     { db with trainer := db.trainer ++
         [{ trainer_id := newId, name := payload.name,
            gym_leader := payload.gym_leader }] })

/-- Handler for DELETE /trainer/id. -/
def delete_trainer (err : Stmt → Bool) (db : DB) (id : Int) :
    Outcome Unit × DB :=
  if err (.deleteTrainer id) then (.resp .Error, db)
  else
    (.resp .OK,
     { db with trainer := db.trainer.filter (fun r => !(r.trainer_id == id)) })

/-- One pokemon row of the top-level loop of get_pokemon: resolve the
region name (unwrapping the first row), then fan out over the abilities
join table. -/
def assemblePokemonFull (err : Stmt → Bool) (db : DB) (r : PokemonRow) :
    Except Unit PokemonFull :=
  if err (.selectRegionNameById r.region_id) then .error ()
  else
    match (qRegionNameById db r.region_id).head? with
    | none => .error ()
    | some region =>
        if err (.selectPokemonAbilitiesByPokemon r.pokemon_id) then .error ()
        else
          match mapE (abilitiesForJoinRow err db)
              (qPokemonAbilitiesByPokemon db r.pokemon_id) with
          | .error e => .error e
          | .ok lists =>
              .ok { pokemon_id := r.pokemon_id, name := r.name,
                    region := region, abilities := lists.flatten }

/-- Handler for GET /pokemon. -/
def get_pokemon (err : Stmt → Bool) (db : DB) :
    Outcome GetPokemonResponse × DB :=
  if err .selectPokemonAll then (.resp .Error, db)
  else
    match mapE (assemblePokemonFull err db) (qPokemonAll db) with
    | .error _ => (.panicked, db)
    | .ok ps => (.resp (.JsonData { pokemons := ps }), db)

/-! JSON serialization of response bodies, following serde's behavior:
struct fields in declaration order, an Option field always present and
serialized as null when None. -/

inductive Json where
  | null
  | bool (b : Bool)
  | num (n : Int)
  | str (s : String)
  | arr (elems : List Json)
  | obj (fields : List (String × Json))

def Pokemon.toJson (p : Pokemon) : Json :=
  .obj [("pokemon_id", .num p.pokemon_id), ("name", .str p.name),
        ("region", .str p.region)]

def Trainer.toJson (t : Trainer) : Json :=
  .obj [("trainer_id", .num t.trainer_id), ("name", .str t.name),
        ("gym_leader", .bool t.gym_leader),
        ("pokemon",
          match t.pokemon with
          | none => Json.null
          | some ps => Json.arr (ps.map Pokemon.toJson))]

def Ability.toJson (a : Ability) : Json :=
  .obj [("ability_id", .num a.ability_id), ("name", .str a.name),
        ("damage", .num a.damage), ("status_effect", .str a.status_effect)]

def PokemonFull.toJson (p : PokemonFull) : Json :=
  .obj [("pokemon_id", .num p.pokemon_id), ("name", .str p.name),
        ("region", .str p.region),
        ("abilities", .arr (p.abilities.map Ability.toJson))]

def GetTrainersResponse.toJson (r : GetTrainersResponse) : Json :=
  .obj [("trainers", .arr (r.trainers.map Trainer.toJson))]

def GetTrainerResponse.toJson (r : GetTrainerResponse) : Json :=
  .obj [("trainers", .arr (r.trainers.map Trainer.toJson))]

/-- Field lookup in a serialized JSON object. -/
def Json.getField : Json → String → Option Json
  | .obj fields, k => (fields.find? (fun f => f.1 == k)).map (fun f => f.2)
  | _, _ => none

/-- The keys of a serialized JSON object. -/
def Json.keys : Json → List String
  | .obj fields => fields.map (fun f => f.1)
  | _ => []

/-- An HTTP response: status code and optional JSON body. -/
structure HttpResponse where
  status : Nat
  body : Option Json

/-- The IntoResponse implementation of the envelope. -/
def into_response (toJ : T → Json) : ApiResponse T → HttpResponse
  | .OK => { status := 200, body := none }
  | .Error => { status := 500, body := none }
  | .JsonData d => { status := 200, body := some (toJ d) }

end PokeApi

namespace PokeApi

/-! Helper lemmas about the loop combinator. -/

theorem mapE_ok_of_forall {f : α → Except Unit β} {g : α → β} :
    ∀ {l : List α}, (∀ a ∈ l, f a = .ok (g a)) → mapE f l = .ok (l.map g)
  | [], _ => rfl
  | a :: as, h => by
    have ha := h a (List.mem_cons_self a as)
    have hrest : mapE f as = .ok (as.map g) :=
      mapE_ok_of_forall (fun x hx => h x (List.mem_cons_of_mem a hx))
    simp [mapE, ha, hrest]

theorem mapE_error_of_mem {f : α → Except Unit β} {a : α} :
    ∀ {l : List α}, a ∈ l → f a = .error () → mapE f l = .error ()
  | [], h, _ => absurd h (List.not_mem_nil a)
  | b :: bs, h, hf => by
    rcases List.mem_cons.mp h with rfl | hmem
    · simp [mapE, hf]
    · cases hfb : f b with
      | error e => cases e; simp [mapE, hfb]
      | ok v =>
        have := mapE_error_of_mem hmem hf
        simp [mapE, hfb, this]

theorem mapE_ok_forall {f : α → Except Unit β} :
    ∀ {l : List α} {ys : List β}, mapE f l = .ok ys →
      List.Forall₂ (fun a b => f a = .ok b) l ys
  | [], ys, h => by
    simp [mapE] at h
    subst h
    exact List.Forall₂.nil
  | a :: as, ys, h => by
    cases hfa : f a with
    | error e => simp [mapE, hfa] at h
    | ok b =>
      cases hrest : mapE f as with
      | error e => simp [mapE, hfa, hrest] at h
      | ok bs =>
        simp [mapE, hfa, hrest] at h
        subst h
        exact List.Forall₂.cons hfa (mapE_ok_forall hrest)

theorem flatten_map_singleton {g : α → β} :
    ∀ (l : List α), (l.map (fun a => [g a])).flatten = l.map g
  | [] => rfl
  | a :: as => by simp [flatten_map_singleton as]

theorem forall₂_mem_right {R : α → β → Prop} :
    ∀ {l₁ : List α} {l₂ : List β}, List.Forall₂ R l₁ l₂ → ∀ b ∈ l₂,
      ∃ a ∈ l₁, R a b := by
  intro l₁ l₂ h
  induction h with
  | nil => intro b hb; exact absurd hb (List.not_mem_nil b)
  | cons hR _ ih =>
    intro b hb
    rcases List.mem_cons.mp hb with rfl | hb
    · exact ⟨_, List.mem_cons_self _ _, hR⟩
    · rcases ih b hb with ⟨a, ha, hab⟩
      exact ⟨a, List.mem_cons_of_mem _ ha, hab⟩

/-- Inversion of the per-trainer assembly step. -/
theorem assembleTrainer_ok_inv {err : Stmt → Bool} {db : DB} {r : TrainerRow}
    {t : Trainer} (h : assembleTrainer err db r = .ok t) :
    ∃ pl, pokemonListForTrainer err db r.trainer_id = .ok pl ∧
      t = { trainer_id := r.trainer_id, name := r.name,
            gym_leader := r.gym_leader, pokemon := some pl } := by
  unfold assembleTrainer at h
  cases hpl : pokemonListForTrainer err db r.trainer_id with
  | error e => rw [hpl] at h; cases h
  | ok pl =>
    rw [hpl] at h
    cases h
    exact ⟨pl, rfl, rfl⟩

/-- Inversion of a successful GET /trainer: the response rows are exactly
the per-row assemblies of the trainer table, in table order. -/
theorem get_trainers_ok_inv {err : Stmt → Bool} {db : DB} {ts : List Trainer}
    (h : (get_trainers err db).1 = .resp (.JsonData { trainers := ts })) :
    List.Forall₂ (fun r t => assembleTrainer err db r = .ok t) db.trainer ts := by
  unfold get_trainers at h
  by_cases he : err .selectTrainerAll
  · simp [he] at h
  · simp only [he, if_false, Bool.false_eq_true] at h
    cases hm : mapE (assembleTrainer err db) (qTrainerAll db) with
    | error e => rw [hm] at h; simp at h
    | ok tr =>
      rw [hm] at h
      simp at h
      subst h
      exact mapE_ok_forall hm

end PokeApi

namespace PokeApi

/-! Concrete database states and failure oracles used in the witnesses. -/

/-- A well-formed store: one trainer owning one creature through two
duplicate ownership rows, one region, one ability. -/
def dbW : DB :=
  { trainer := [{ trainer_id := 1, name := "Ash", gym_leader := false }],
    pokemon := [{ pokemon_id := 10, name := "Pikachu", region_id := 100 }],
    region := [{ region_id := 100, region_name := "Kanto" }],
    ability := [{ ability_id := 7, name := "Thunderbolt", damage := 90,
                  status_effect := "paralyze" }],
    pokemonabilities := [{ pokemon_id := 10, ability_id := 7 }],
    trainerspokemon := [{ trainer_id := 1, pokemon_id := 10 },
                        { trainer_id := 1, pokemon_id := 10 }] }

/-- A store whose one creature references region id 55 with an empty
region table: the dangling foreign key that makes the unwrap panic. -/
def dbBad : DB :=
  { trainer := [{ trainer_id := 1, name := "Ash", gym_leader := false }],
    pokemon := [{ pokemon_id := 10, name := "Pikachu", region_id := 55 }],
    region := [],
    ability := [],
    pokemonabilities := [],
    trainerspokemon := [{ trainer_id := 1, pokemon_id := 10 }] }

/-- Oracle failing exactly the top-level trainer query. -/
def errTop : Stmt → Bool := fun s =>
  match s with
  | .selectTrainerAll => true
  | _ => false

/-- Oracle failing exactly the inner ownership fan-out query. -/
def errOwn : Stmt → Bool := fun s =>
  match s with
  | .selectTrainersPokemonByTrainer _ => true
  | _ => false

/-- Oracle failing exactly the inner creature lookup query. -/
def errCreature : Stmt → Bool := fun s =>
  match s with
  | .selectPokemonById _ => true
  | _ => false

/-- Oracle failing exactly the inner region lookup query. -/
def errRegion : Stmt → Bool := fun s =>
  match s with
  | .selectRegionNameById _ => true
  | _ => false

end PokeApi

namespace PokeApi

/-- C4: the response envelope maps its three variants exactly as OK to
HTTP 200 with empty body, Error to HTTP 500 with empty body and no error
detail, and JsonData to HTTP 200 with the serialized JSON body; no other
status code is produced by the envelope. -/
theorem C4_envelope_mapping :
    ∀ (T : Type) (toJ : T → Json),
      into_response toJ (ApiResponse.OK : ApiResponse T) =
        { status := 200, body := none } ∧
      into_response toJ (ApiResponse.Error : ApiResponse T) =
        { status := 500, body := none } ∧
      (∀ d : T, into_response toJ (ApiResponse.JsonData d) =
        { status := 200, body := some (toJ d) }) ∧
      (∀ r : ApiResponse T, (into_response toJ r).status = 200 ∨
        (into_response toJ r).status = 500) := by
  intro T toJ
  refine ⟨rfl, rfl, fun d => rfl, fun r => ?_⟩
  cases r <;> simp [into_response]

/-- C7: GET /pokemon-abilities/id for a creature id with zero linked rows
in the pokemonabilities join table returns the success body with an empty
ability list, not an error response. -/
theorem C7_no_abilities_empty_list (db : DB) (id : Int)
    (h : qPokemonAbilitiesByPokemon db id = []) :
    (get_ability noFail db id).1 = .resp (.JsonData { ability := [] }) := by
  simp [get_ability, noFail, h, mapE]

theorem C7_no_abilities_empty_list_witness :
    qPokemonAbilitiesByPokemon dbW 999 = [] ∧
    (get_ability noFail dbW 999).1 = .resp (.JsonData { ability := [] }) :=
  ⟨by decide, C7_no_abilities_empty_list dbW 999 (by decide)⟩

/-- The five tables the service never writes. -/
def tablesExceptTrainer (db : DB) :
    List RegionRow × List PokemonRow × List AbilityRow ×
      List PokemonAbilitiesRow × List TrainersPokemonRow :=
  (db.region, db.pokemon, db.ability, db.pokemonabilities, db.trainerspokemon)

/-- C8: no request handler modifies the region, pokemon, ability,
pokemonabilities, or trainerspokemon tables; the GET handlers leave the
whole store unchanged, and the INSERT and DELETE of the trainer handlers
touch only the trainer table. -/
theorem C8_read_only_tables (err : Stmt → Bool) (db : DB) (id newId : Int)
    (payload : CreateUserRequest) :
    (get_trainers err db).2 = db ∧
    (get_trainer err db id).2 = db ∧
    (get_pokemon err db).2 = db ∧
    (get_ability err db id).2 = db ∧
    tablesExceptTrainer (create_trainer err db newId payload).2 =
      tablesExceptTrainer db ∧
    tablesExceptTrainer (delete_trainer err db id).2 =
      tablesExceptTrainer db := by
  refine ⟨?_, ?_, ?_, ?_, ?_, ?_⟩
  · unfold get_trainers
    split
    · rfl
    · split <;> rfl
  · unfold get_trainer
    split <;> rfl
  · unfold get_pokemon
    split
    · rfl
    · split <;> rfl
  · unfold get_ability
    split
    · rfl
    · split <;> rfl
  · unfold create_trainer
    split <;> rfl
  · unfold delete_trainer
    split <;> rfl

/-- C9: the SQL text of every request-path statement is a fixed constant
determined by which of the ten statements it is, independent of the
caller-supplied values, which reach the store only as positional
parameters; every text is one of the ten fixed strings. -/
theorem C9_fixed_statement_text :
    (∀ s t : Stmt, Stmt.tag s = Stmt.tag t → Stmt.text s = Stmt.text t) ∧
    (∀ s : Stmt, Stmt.text s ∈ sqlTexts) ∧
    (∀ id : Int, Stmt.params (Stmt.selectTrainerById id) = [SqlValue.int id]) ∧
    (∀ id : Int, Stmt.params (Stmt.selectTrainersPokemonByTrainer id) =
      [SqlValue.int id]) ∧
    (∀ id : Int, Stmt.params (Stmt.selectPokemonById id) = [SqlValue.int id]) ∧
    (∀ id : Int, Stmt.params (Stmt.selectRegionNameById id) = [SqlValue.int id]) ∧
    (∀ id : Int, Stmt.params (Stmt.selectPokemonAbilitiesByPokemon id) =
      [SqlValue.int id]) ∧
    (∀ id : Int, Stmt.params (Stmt.selectAbilityById id) = [SqlValue.int id]) ∧
    (∀ n g, Stmt.params (Stmt.insertTrainer n g) =
      [SqlValue.str n, SqlValue.bool g]) ∧
    (∀ id : Int, Stmt.params (Stmt.deleteTrainer id) = [SqlValue.int id]) := by
  refine ⟨?_, ?_, fun _ => rfl, fun _ => rfl, fun _ => rfl, fun _ => rfl,
    fun _ => rfl, fun _ => rfl, fun _ _ => rfl, fun _ => rfl⟩
  · intro s t h
    cases s <;> cases t <;> first | rfl | simp [Stmt.tag] at h
  · intro s
    cases s <;> simp [Stmt.text, sqlTexts]

theorem C9_fixed_statement_text_witness :
    Stmt.text (Stmt.selectTrainerById 3) = Stmt.text (Stmt.selectTrainerById 7) ∧
    Stmt.text (Stmt.insertTrainer "Ash" true) =
      Stmt.text (Stmt.insertTrainer "Misty" false) :=
  ⟨C9_fixed_statement_text.1 _ _ rfl, C9_fixed_statement_text.1 _ _ rfl⟩

/-- C6: DELETE /trainer/id always returns the Ok envelope (also when zero
rows are affected); after deleting an id, GET /trainer/id on the resulting
store returns an empty list; deleting a non-existent id leaves the store
unchanged. -/
theorem C6_delete_semantics (db : DB) (id : Int) :
    (delete_trainer noFail db id).1 = .resp .OK ∧
    (get_trainer noFail (delete_trainer noFail db id).2 id).1 =
      .resp (.JsonData { trainers := [] }) ∧
    ((∀ r ∈ db.trainer, r.trainer_id ≠ id) →
      (delete_trainer noFail db id).2 = db) := by
  refine ⟨rfl, ?_, ?_⟩
  · have hnil : (db.trainer.filter (fun r => !(r.trainer_id == id))).filter
        (fun r => r.trainer_id == id) = [] := by
      induction db.trainer with
      | nil => rfl
      | cons a as ih =>
        by_cases ha : a.trainer_id = id <;>
          simp [List.filter_cons, ha, ih]
    simp [get_trainer, noFail, delete_trainer, qTrainerById, hnil]
  · intro h
    have hself : db.trainer.filter (fun r => !(r.trainer_id == id)) =
        db.trainer := by
      apply List.filter_eq_self.mpr
      intro a ha
      simp [h a ha]
    simp only [delete_trainer, noFail, Bool.false_eq_true, if_false, hself]

theorem C6_delete_semantics_witness :
    (delete_trainer noFail dbW 1).1 = .resp .OK ∧
    (get_trainer noFail (delete_trainer noFail dbW 1).2 1).1 =
      .resp (.JsonData { trainers := [] }) ∧
    (delete_trainer noFail dbW 999).2 = dbW :=
  ⟨(C6_delete_semantics dbW 1).1, (C6_delete_semantics dbW 1).2.1,
    (C6_delete_semantics dbW 999).2.2 (by decide)⟩

end PokeApi

namespace PokeApi

/-- C2: in trainer roster assembly and in creature detail assembly, a
region lookup returning zero rows for a reachable creature row makes the
whole request fail (the unwrap panics); no envelope is produced, so no
response with the region silently omitted or with partial data exists. -/
theorem C2_missing_region_fails (db : DB) (p : PokemonRow)
    (hreg : qRegionNameById db p.region_id = []) :
    (p ∈ db.pokemon → (get_pokemon noFail db).1 = .panicked) ∧
    (∀ tp ∈ db.trainerspokemon,
      (∃ r ∈ db.trainer, r.trainer_id = tp.trainer_id) →
      p ∈ qPokemonById db tp.pokemon_id →
      (get_trainers noFail db).1 = .panicked) := by
  constructor
  · intro hp
    have hasm : assemblePokemonFull noFail db p = .error () := by
      simp [assemblePokemonFull, noFail, hreg]
    have hm : mapE (assemblePokemonFull noFail db) (qPokemonAll db) =
        .error () := mapE_error_of_mem hp hasm
    simp [get_pokemon, noFail, hm]
  · rintro tp htp ⟨r, hr, hrid⟩ hp
    have hro : resolveOwnedPokemon noFail db p = .error () := by
      simp [resolveOwnedPokemon, noFail, hreg]
    have hpf : pokemonForId noFail db tp.pokemon_id = .error () := by
      have := mapE_error_of_mem hp hro
      simp [pokemonForId, noFail, this]
    have hmem : tp.pokemon_id ∈ qTrainersPokemonByTrainer db r.trainer_id := by
      simp only [qTrainersPokemonByTrainer, List.mem_map]
      refine ⟨tp, ?_, rfl⟩
      simp [List.mem_filter, htp, hrid]
    have hplt : pokemonListForTrainer noFail db r.trainer_id = .error () := by
      have := mapE_error_of_mem hmem hpf
      simp [pokemonListForTrainer, noFail, this]
    have hasm : assembleTrainer noFail db r = .error () := by
      simp [assembleTrainer, hplt]
    have hm : mapE (assembleTrainer noFail db) (qTrainerAll db) = .error () :=
      mapE_error_of_mem hr hasm
    simp [get_trainers, noFail, hm]

theorem C2_missing_region_fails_witness :
    qRegionNameById dbBad 55 = [] ∧
    (get_pokemon noFail dbBad).1 = .panicked ∧
    (get_trainers noFail dbBad).1 = .panicked := by
  refine ⟨by decide, ?_, ?_⟩
  · exact (C2_missing_region_fails dbBad ⟨10, "Pikachu", 55⟩ (by decide)).1
      (by decide)
  · exact (C2_missing_region_fails dbBad ⟨10, "Pikachu", 55⟩ (by decide)).2
      ⟨1, 10⟩ (by decide) ⟨⟨1, "Ash", false⟩, by decide, by decide⟩ (by decide)

/-- C3 counterexample: with a store failing exactly the inner ownership
fan-out query, GET /trainer panics on the unwrap instead of returning the
Error envelope, refuting the claim that any inner fan-out query error is
surfaced as the Error envelope. -/
theorem C3_counterexample :
    (get_trainers errOwn dbW).1 = .panicked ∧
    (get_trainers errOwn dbW).1 ≠ .resp .Error := by decide

/-- C3 (amended): a query error on the top-level trainer query makes
GET /trainer return the Error envelope; a query error on any inner
fan-out query reached for a listed trainer — the ownership lookup, the
creature lookup of an owned id, or the region lookup of a fetched
creature row — makes the handler panic on the unwrap, crashing the
request task with no envelope. -/
theorem C3_toplevel_error_inner_panic (err : Stmt → Bool) (db : DB) :
    (err .selectTrainerAll = true → (get_trainers err db).1 = .resp .Error) ∧
    (err .selectTrainerAll = false →
      ∀ r ∈ db.trainer,
        (err (.selectTrainersPokemonByTrainer r.trainer_id) = true ∨
         (∃ pid ∈ qTrainersPokemonByTrainer db r.trainer_id,
            err (.selectPokemonById pid) = true) ∨
         (∃ pid ∈ qTrainersPokemonByTrainer db r.trainer_id,
            ∃ p ∈ qPokemonById db pid,
              err (.selectRegionNameById p.region_id) = true)) →
        (get_trainers err db).1 = .panicked) := by
  constructor
  · intro h
    simp [get_trainers, h]
  · intro h r hr hcase
    have hplt : pokemonListForTrainer err db r.trainer_id = .error () := by
      rcases hcase with herr | ⟨pid, hpid, herr⟩ | ⟨pid, hpid, p, hp, herr⟩
      · simp [pokemonListForTrainer, herr]
      · by_cases hown : err (.selectTrainersPokemonByTrainer r.trainer_id)
        · simp [pokemonListForTrainer, hown]
        · have hpf : pokemonForId err db pid = .error () := by
            simp [pokemonForId, herr]
          have hm := mapE_error_of_mem hpid hpf
          simp [pokemonListForTrainer, hown, hm]
      · by_cases hown : err (.selectTrainersPokemonByTrainer r.trainer_id)
        · simp [pokemonListForTrainer, hown]
        · have hro : resolveOwnedPokemon err db p = .error () := by
            simp [resolveOwnedPokemon, herr]
          have hpf : pokemonForId err db pid = .error () := by
            by_cases hcre : err (.selectPokemonById pid)
            · simp [pokemonForId, hcre]
            · have hm := mapE_error_of_mem hp hro
              simp [pokemonForId, hcre, hm]
          have hm := mapE_error_of_mem hpid hpf
          simp [pokemonListForTrainer, hown, hm]
    have hasm : assembleTrainer err db r = .error () := by
      simp [assembleTrainer, hplt]
    have hm : mapE (assembleTrainer err db) (qTrainerAll db) = .error () :=
      mapE_error_of_mem hr hasm
    simp [get_trainers, h, hm]

theorem C3_toplevel_error_inner_panic_witness :
    (get_trainers errTop dbW).1 = .resp .Error ∧
    (get_trainers errOwn dbW).1 = .panicked ∧
    (get_trainers errCreature dbW).1 = .panicked ∧
    (get_trainers errRegion dbW).1 = .panicked := by
  refine ⟨?_, ?_, ?_, ?_⟩
  · exact (C3_toplevel_error_inner_panic errTop dbW).1 rfl
  · exact (C3_toplevel_error_inner_panic errOwn dbW).2 rfl
      ⟨1, "Ash", false⟩ (by decide) (Or.inl rfl)
  · exact (C3_toplevel_error_inner_panic errCreature dbW).2 rfl
      ⟨1, "Ash", false⟩ (by decide)
      (Or.inr (Or.inl ⟨10, by decide, rfl⟩))
  · exact (C3_toplevel_error_inner_panic errRegion dbW).2 rfl
      ⟨1, "Ash", false⟩ (by decide)
      (Or.inr (Or.inr ⟨10, by decide, ⟨10, "Pikachu", 100⟩, by decide, rfl⟩))

end PokeApi

namespace PokeApi

/-- C5: for every store state and id, GET /trainer/id returns exactly the
trainer rows whose trainer_id matches the path id, each with the pokemon
field absent; and whenever GET /trainer returns a body, it lists all
trainer rows in order, each with the pokemon list populated. -/
theorem C5_lookup_vs_listing (db : DB) (id : Int) :
    (get_trainer noFail db id).1 = .resp (.JsonData { trainers :=
      (db.trainer.filter (fun r => r.trainer_id == id)).map (fun r =>
        { trainer_id := r.trainer_id, name := r.name,
          gym_leader := r.gym_leader, pokemon := none }) }) ∧
    (∀ ts, (get_trainers noFail db).1 = .resp (.JsonData { trainers := ts }) →
      List.Forall₂ (fun (r : TrainerRow) (t : Trainer) =>
        t.trainer_id = r.trainer_id ∧ t.name = r.name ∧
        t.gym_leader = r.gym_leader ∧ ∃ pl, t.pokemon = some pl)
        db.trainer ts) := by
  constructor
  · rfl
  · intro ts h
    have h2 := get_trainers_ok_inv h
    refine List.Forall₂.imp ?_ h2
    intro r t ha
    rcases assembleTrainer_ok_inv ha with ⟨pl, _, rfl⟩
    exact ⟨rfl, rfl, rfl, pl, rfl⟩

theorem C5_lookup_vs_listing_witness :
    (get_trainer noFail dbW 1).1 = .resp (.JsonData { trainers :=
      (dbW.trainer.filter (fun r => r.trainer_id == 1)).map (fun r =>
        { trainer_id := r.trainer_id, name := r.name,
          gym_leader := r.gym_leader, pokemon := none }) }) ∧
    List.Forall₂ (fun (r : TrainerRow) (t : Trainer) =>
      t.trainer_id = r.trainer_id ∧ t.name = r.name ∧
      t.gym_leader = r.gym_leader ∧ ∃ pl, t.pokemon = some pl)
      dbW.trainer
      [{ trainer_id := 1, name := "Ash", gym_leader := false,
         pokemon := some [⟨10, "Pikachu", "Kanto"⟩, ⟨10, "Pikachu", "Kanto"⟩] }] :=
  ⟨(C5_lookup_vs_listing dbW 1).1,
    (C5_lookup_vs_listing dbW 1).2 _ (by decide)⟩

/-- C10: in the body of GET /trainer/id every returned trainer serializes
the pokemon field as the literal JSON value null, while in GET /trainer it
is always a JSON array; nested creature objects carry exactly the keys
pokemon_id, name, region and hence no abilities field. -/
theorem C10_serialized_field_shapes (db : DB) (id : Int) :
    (∀ resp, (get_trainer noFail db id).1 = .resp (.JsonData resp) →
      ∀ t ∈ resp.trainers,
        Json.getField (Trainer.toJson t) "pokemon" = some Json.null) ∧
    (∀ resp, (get_trainers noFail db).1 = .resp (.JsonData resp) →
      ∀ t ∈ resp.trainers, ∃ elems,
        Json.getField (Trainer.toJson t) "pokemon" = some (Json.arr elems) ∧
        ∀ e ∈ elems, Json.keys e = ["pokemon_id", "name", "region"] ∧
          "abilities" ∉ Json.keys e) := by
  constructor
  · intro resp h t ht
    simp only [get_trainer, noFail, Bool.false_eq_true, if_false,
      Outcome.resp.injEq, ApiResponse.JsonData.injEq] at h
    subst h
    simp only [List.mem_map] at ht
    obtain ⟨r, _, rfl⟩ := ht
    rfl
  · intro resp h t ht
    have h2 : List.Forall₂ (fun r t => assembleTrainer noFail db r = .ok t)
        db.trainer resp.trainers := get_trainers_ok_inv h
    obtain ⟨r, _, ha⟩ := forall₂_mem_right h2 t ht
    rcases assembleTrainer_ok_inv ha with ⟨pl, _, rfl⟩
    refine ⟨pl.map Pokemon.toJson, rfl, ?_⟩
    intro e he
    simp only [List.mem_map] at he
    obtain ⟨p, _, rfl⟩ := he
    have hk : Json.keys (Pokemon.toJson p) = ["pokemon_id", "name", "region"] :=
      rfl
    refine ⟨hk, ?_⟩
    rw [hk]
    decide

theorem C10_serialized_field_shapes_witness :
    Json.getField (Trainer.toJson ⟨1, "Ash", false, none⟩) "pokemon" =
      some Json.null ∧
    (∃ elems,
      Json.getField (Trainer.toJson ⟨1, "Ash", false,
        some [⟨10, "Pikachu", "Kanto"⟩, ⟨10, "Pikachu", "Kanto"⟩]⟩) "pokemon" =
        some (Json.arr elems) ∧
      ∀ e ∈ elems, Json.keys e = ["pokemon_id", "name", "region"] ∧
        "abilities" ∉ Json.keys e) := by
  constructor
  · exact (C10_serialized_field_shapes dbW 1).1 ⟨[⟨1, "Ash", false, none⟩]⟩
      (by decide) ⟨1, "Ash", false, none⟩ (by decide)
  · exact (C10_serialized_field_shapes dbW 1).2
      ⟨[⟨1, "Ash", false, some [⟨10, "Pikachu", "Kanto"⟩,
        ⟨10, "Pikachu", "Kanto"⟩]⟩]⟩ (by decide)
      ⟨1, "Ash", false, some [⟨10, "Pikachu", "Kanto"⟩,
        ⟨10, "Pikachu", "Kanto"⟩]⟩ (by decide)

end PokeApi

namespace PokeApi

/-- The unique resolution of one owned-creature id when its lookup returns
a single row: the record GET /trainer builds for that ownership row. -/
def resolveOne (db : DB) (pid : Int) : Pokemon :=
  match qPokemonById db pid with
  | [] => { pokemon_id := 0, name := "", region := "" }
  | p :: _ =>
      { pokemon_id := p.pokemon_id, name := p.name,
        region := (qRegionNameById db p.region_id).headD "" }

/-- C1: when every ownership row's creature id resolves to exactly one
creature row whose region exists, GET /trainer succeeds and each trainer's
creature list has exactly one fully resolved record per ownership row, in
the order the ownership rows are returned, without de-duplication. -/
theorem C1_roster_per_ownership_row (db : DB)
    (hres : ∀ tp ∈ db.trainerspokemon,
      ∃ p, qPokemonById db tp.pokemon_id = [p] ∧
        qRegionNameById db p.region_id ≠ []) :
    ∃ trainers,
      (get_trainers noFail db).1 = .resp (.JsonData { trainers := trainers }) ∧
      List.Forall₂ (fun (r : TrainerRow) (t : Trainer) =>
        t.trainer_id = r.trainer_id ∧ t.name = r.name ∧
        t.gym_leader = r.gym_leader ∧
        ∃ pl, t.pokemon = some pl ∧
          List.Forall₂ (fun (pid : Int) (pk : Pokemon) =>
            ∃ p, qPokemonById db pid = [p] ∧ pk.pokemon_id = p.pokemon_id ∧
              pk.name = p.name ∧
              (qRegionNameById db p.region_id).head? = some pk.region)
            (qTrainersPokemonByTrainer db r.trainer_id) pl)
        db.trainer trainers := by
  have hpid : ∀ tid : Int, ∀ pid ∈ qTrainersPokemonByTrainer db tid,
      ∃ p, qPokemonById db pid = [p] ∧ qRegionNameById db p.region_id ≠ [] := by
    intro tid pid hmem
    simp only [qTrainersPokemonByTrainer, List.mem_map, List.mem_filter]
      at hmem
    obtain ⟨tp, ⟨htp, _⟩, hpe⟩ := hmem
    subst hpe
    exact hres tp htp
  have hone : ∀ tid : Int, ∀ pid ∈ qTrainersPokemonByTrainer db tid,
      pokemonForId noFail db pid = .ok [resolveOne db pid] := by
    intro tid pid hmem
    obtain ⟨p, hp, hreg⟩ := hpid tid pid hmem
    cases hq : qRegionNameById db p.region_id with
    | nil => exact absurd hq hreg
    | cons x xs =>
      have hro : resolveOwnedPokemon noFail db p = .ok (resolveOne db pid) := by
        simp [resolveOwnedPokemon, noFail, hq, resolveOne, hp]
      simp [pokemonForId, noFail, hp, mapE, hro]
  have hlist : ∀ tid : Int, pokemonListForTrainer noFail db tid =
      .ok ((qTrainersPokemonByTrainer db tid).map (resolveOne db)) := by
    intro tid
    have hm := mapE_ok_of_forall (hone tid)
    simp [pokemonListForTrainer, noFail, hm, flatten_map_singleton]
  have hasm : ∀ r ∈ db.trainer, assembleTrainer noFail db r = .ok
      { trainer_id := r.trainer_id, name := r.name, gym_leader := r.gym_leader,
        pokemon := some ((qTrainersPokemonByTrainer db r.trainer_id).map
          (resolveOne db)) } := by
    intro r _
    simp [assembleTrainer, hlist r.trainer_id]
  have hmap := mapE_ok_of_forall hasm
  refine ⟨db.trainer.map (fun a =>
    { trainer_id := a.trainer_id, name := a.name, gym_leader := a.gym_leader,
      pokemon := some ((qTrainersPokemonByTrainer db a.trainer_id).map
        (resolveOne db)) }), ?_, ?_⟩
  · simp [get_trainers, noFail, qTrainerAll, hmap]
  · rw [List.forall₂_map_right_iff, List.forall₂_same]
    intro r hr
    refine ⟨rfl, rfl, rfl, _, rfl, ?_⟩
    rw [List.forall₂_map_right_iff, List.forall₂_same]
    intro pid hpmem
    obtain ⟨p, hp, hreg⟩ := hpid r.trainer_id pid hpmem
    cases hq : qRegionNameById db p.region_id with
    | nil => exact absurd hq hreg
    | cons x xs =>
      refine ⟨p, hp, ?_, ?_, ?_⟩ <;> simp [resolveOne, hp, hq]

end PokeApi

namespace PokeApi

theorem C1_roster_per_ownership_row_witness :
    ∃ trainers,
      (get_trainers noFail dbW).1 = .resp (.JsonData { trainers := trainers }) ∧
      List.Forall₂ (fun (r : TrainerRow) (t : Trainer) =>
        t.trainer_id = r.trainer_id ∧ t.name = r.name ∧
        t.gym_leader = r.gym_leader ∧
        ∃ pl, t.pokemon = some pl ∧
          List.Forall₂ (fun (pid : Int) (pk : Pokemon) =>
            ∃ p, qPokemonById dbW pid = [p] ∧ pk.pokemon_id = p.pokemon_id ∧
              pk.name = p.name ∧
              (qRegionNameById dbW p.region_id).head? = some pk.region)
            (qTrainersPokemonByTrainer dbW r.trainer_id) pl)
        dbW.trainer trainers := by
  apply C1_roster_per_ownership_row
  intro tp htp
  simp only [dbW, List.mem_cons, List.not_mem_nil, or_false, or_self] at htp
  subst htp
  exact ⟨⟨10, "Pikachu", 100⟩, by decide, by decide⟩

end PokeApi
